import Mathlib

/-!
# Verification of the network-bootstrapper core

Shallow embedding of the genesis assembler, validator extra-data encoder,
artifact publisher and artifact synchronizer of the network-bootstrapper
repository, together with theorems settling the specification claims.

JavaScript numbers are modelled as exact rationals (`ℚ`), JavaScript
`Record` objects as insertion-ordered association lists with the object
spread/overwrite semantics made explicit, and fallible code as
`Option`/`Except` values.
-/

namespace NetworkBootstrapper

/-! ## Genesis service (src/genesis/besu-genesis.service.ts) -/

/-- The two consensus algorithms of `ALGORITHM` (`"IBFTv2" | "QBFT"`). -/
inductive Algorithm where
  | ibftV2
  | qbft
deriving DecidableEq, Repr

/-- `BesuAllocAccount`: balance plus optional code and storage. -/
structure BesuAllocAccount where
  balance : String
  code : Option String
  storage : Option (List (String × String))
deriving DecidableEq, Repr

/-- A JavaScript `Record<string, BesuAllocAccount>` as an insertion-ordered
association list. -/
abbrev AllocRecord := List (String × BesuAllocAccount)

/-- `BesuNetworkConfig`. `number` fields are modelled as exact rationals. -/
structure BesuNetworkConfig where
  chainId : Int
  contractSizeLimit : Option Int
  evmStackSize : Option Int
  faucetWalletAddress : String
  gasLimit : String
  gasPrice : Option ℚ
  secondsPerBlock : ℚ
deriving DecidableEq, Repr

/-- `BesuBftConfig`: the consensus sub-block shared by IBFT2 and QBFT. -/
structure BesuBftConfig where
  blockperiodseconds : ℚ
  epochlength : Nat
  xemptyblockperiodseconds : ℚ
  requesttimeoutseconds : Int
deriving DecidableEq, Repr

/-- `BesuGenesisConfig`: chain parameters plus at most one consensus block. -/
structure BesuGenesisConfig where
  chainId : Int
  homesteadBlock : Nat
  eip150Block : Nat
  eip150Hash : String
  eip155Block : Nat
  eip158Block : Nat
  byzantiumBlock : Nat
  constantinopleBlock : Nat
  petersburgBlock : Nat
  istanbulBlock : Nat
  muirGlacierBlock : Nat
  berlinBlock : Nat
  londonBlock : Nat
  shanghaiTime : Nat
  cancunTime : Nat
  zeroBaseFee : Bool
  contractSizeLimit : Option Int
  evmStackSize : Option Int
  ibft2 : Option BesuBftConfig
  qbft : Option BesuBftConfig
deriving DecidableEq, Repr

/-- `BesuGenesis`: the full genesis document. -/
structure BesuGenesis where
  config : BesuGenesisConfig
  nonce : String
  timestamp : String
  gasLimit : String
  difficulty : String
  mixHash : String
  coinbase : String
  alloc : AllocRecord
  extraData : String
deriving DecidableEq, Repr

def VANITY_DATA : String :=
  "0x0000000000000000000000000000000000000000000000000000000000000000"

def EMPTY_HEX : String := "0x"

def ROUND_ZERO : String := "0x00000000"

def MIX_HASH : String :=
  "0x63746963616c2062797a616e74696e65206661756c7420746f6c6572616e6365"

def COINBASE_ZERO : String := "0x0000000000000000000000000000000000000000"

def FAUCET_BALANCE : String := "0x446c3b15f9926687d2c40534fdb564000000000000"

def MINIMUM_BFT_BLOCK_PERIOD_SECONDS : ℚ := 60

def MINIMUM_ROUND_BUFFER_SECONDS : ℚ := 5

def ROUND_TIMEOUT_MULTIPLIER : ℚ := 1.33

/-- First-match lookup in an association list, i.e. reading `record[key]` of a
JavaScript object whose keys are unique. -/
def recordLookup (entries : List (String × α)) (key : String) : Option α :=
  match entries with
  | [] => none
  | (k, v) :: rest => if k = key then some v else recordLookup rest key

/-- JavaScript object update `record[key] = value`: overwrite in place when the
key is present (keeping its position), otherwise append. -/
def recordSet (entries : List (String × α)) (key : String) (value : α) :
    List (String × α) :=
  if entries.any (fun p => p.1 = key) then
    entries.map (fun p => if p.1 = key then (key, value) else p)
  else
    entries ++ [(key, value)]

/-- JavaScript object spread `\x7b ...base, ...extra \x7d`: every entry of
`extra` is written over `base` in order (last write wins). -/
def recordSpread (base extra : List (String × α)) : List (String × α) :=
  extra.foldl (fun acc p => recordSet acc p.1 p.2) base

/-- `buildAlloc`: the faucet entry with the fixed starting balance, spread with
the extra allocations. -/
def buildAlloc (faucetWalletAddress : String) (extraAllocations : AllocRecord) :
    AllocRecord :=
  recordSpread
    [(faucetWalletAddress,
      { balance := FAUCET_BALANCE, code := none, storage := none })]
    extraAllocations

/-- `generateBft`: the consensus parameter deriver. -/
def generateBft (config : BesuNetworkConfig) : BesuBftConfig :=
  let timeout : Int :=
    Int.floor
      (max MINIMUM_BFT_BLOCK_PERIOD_SECONDS config.secondsPerBlock +
        max MINIMUM_ROUND_BUFFER_SECONDS
          (config.secondsPerBlock * ROUND_TIMEOUT_MULTIPLIER))
  { blockperiodseconds := config.secondsPerBlock
    epochlength := 30000
    xemptyblockperiodseconds := MINIMUM_BFT_BLOCK_PERIOD_SECONDS
    requesttimeoutseconds := timeout }

/-- `buildConsensusConfig`: exactly one of the `ibft2`/`qbft` keys is set,
returned here as the pair (ibft2 value, qbft value). -/
def buildConsensusConfig (algorithm : Algorithm) (config : BesuNetworkConfig) :
    Option BesuBftConfig × Option BesuBftConfig :=
  match algorithm with
  | .ibftV2 => (some (generateBft config), none)
  | .qbft => (none, some (generateBft config))

/-- `generate`: assembles the genesis document.  The source performs no runtime
validation and cannot throw, so the embedding is a total function.
(`config.chainId ?? this.defaultChainId` resolves to `config.chainId`, which
the `BesuNetworkConfig` type makes mandatory.) -/
def generate (algorithm : Algorithm) (config : BesuNetworkConfig)
    (extraAllocations : AllocRecord) : BesuGenesis :=
  let consensus := buildConsensusConfig algorithm config
  { config :=
      { chainId := config.chainId
        homesteadBlock := 0
        eip150Block := 0
        eip150Hash := VANITY_DATA
        eip155Block := 0
        eip158Block := 0
        byzantiumBlock := 0
        constantinopleBlock := 0
        petersburgBlock := 0
        istanbulBlock := 0
        muirGlacierBlock := 0
        berlinBlock := 0
        londonBlock := 0
        shanghaiTime := 0
        cancunTime := 0
        zeroBaseFee := decide (config.gasPrice.getD 0 = 0)
        contractSizeLimit := config.contractSizeLimit
        evmStackSize := config.evmStackSize
        ibft2 := consensus.1
        qbft := consensus.2 }
    nonce := "0x0"
    timestamp := "0x0"
    gasLimit := config.gasLimit
    difficulty := "0x1"
    mixHash := MIX_HASH
    coinbase := COINBASE_ZERO
    alloc := buildAlloc config.faucetWalletAddress extraAllocations
    extraData := "" }

/-- The network config of the spec's worked example (§8): chain 1337, gas
limit `"0x1"`, two-second blocks, no gas price, no optional limits. -/
def exampleConfig : BesuNetworkConfig :=
  { chainId := 1337
    contractSizeLimit := none
    evmStackSize := none
    faucetWalletAddress := "0xFACE"
    gasLimit := "0x1"
    gasPrice := none
    secondsPerBlock := 2 }

def pricedConfig : BesuNetworkConfig := { exampleConfig with gasPrice := some 1 }

def nonPositiveChainConfig : BesuNetworkConfig := { exampleConfig with chainId := 0 }

theorem recordLookup_append (a b : List (String × α)) (key : String) :
    recordLookup (a ++ b) key =
      match recordLookup a key with
      | some v => some v
      | none => recordLookup b key := by
  induction a with
  | nil => simp [recordLookup]
  | cons p rest ih =>
    obtain ⟨k, v⟩ := p
    by_cases h : k = key <;> simp [recordLookup, h, ih]

theorem recordLookup_map_overwrite_self (r : List (String × α)) (k : String)
    (v : α) :
    recordLookup (r.map (fun p => if p.1 = k then (k, v) else p)) k =
      if r.any (fun p => p.1 = k) then some v else none := by
  induction r with
  | nil => simp [recordLookup]
  | cons p rest ih =>
    obtain ⟨k0, v0⟩ := p
    simp only [List.map_cons]
    by_cases h : k0 = k
    · rw [if_pos h]
      simp [recordLookup, h]
    · rw [if_neg h]
      simp only [recordLookup, List.any_cons]
      rw [if_neg h, ih]
      simp only [show decide (k0 = k) = false from decide_eq_false h,
        Bool.false_or]

theorem recordLookup_map_overwrite_other (r : List (String × α)) (k k' : String)
    (v : α) (h : ¬ k = k') :
    recordLookup (r.map (fun p => if p.1 = k then (k, v) else p)) k' =
      recordLookup r k' := by
  induction r with
  | nil => rfl
  | cons p rest ih =>
    obtain ⟨k0, v0⟩ := p
    simp only [List.map_cons]
    by_cases h0 : k0 = k
    · rw [if_pos h0]
      have hk0 : ¬ k0 = k' := by rw [h0]; exact h
      simp [recordLookup, h, hk0, ih]
    · rw [if_neg h0]
      simp [recordLookup, ih]

theorem recordLookup_eq_none_of_not_any (r : List (String × α)) (k : String)
    (h : r.any (fun p => p.1 = k) = false) : recordLookup r k = none := by
  induction r with
  | nil => rfl
  | cons p rest ih =>
    simp only [List.any_cons, Bool.or_eq_false_iff, decide_eq_false_iff_not] at h
    simp [recordLookup, h.1, ih h.2]

theorem recordLookup_set (r : List (String × α)) (k : String) (v : α)
    (k' : String) :
    recordLookup (recordSet r k v) k' =
      if k = k' then some v else recordLookup r k' := by
  unfold recordSet
  by_cases hmem : r.any (fun p => p.1 = k)
  · rw [if_pos hmem]
    by_cases hk : k = k'
    · subst hk
      rw [recordLookup_map_overwrite_self, if_pos hmem, if_pos rfl]
    · rw [recordLookup_map_overwrite_other r k k' v hk, if_neg hk]
  · rw [if_neg hmem, recordLookup_append]
    by_cases hk : k = k'
    · subst hk
      rw [recordLookup_eq_none_of_not_any r k (Bool.eq_false_iff.mpr hmem)]
      simp [recordLookup]
    · cases h : recordLookup r k' <;> simp [recordLookup, hk, h]

theorem recordLookup_spread (base extra : List (String × α)) (key : String) :
    recordLookup (recordSpread base extra) key =
      match recordLookup extra.reverse key with
      | some v => some v
      | none => recordLookup base key := by
  induction extra generalizing base with
  | nil => simp [recordSpread, recordLookup]
  | cons p rest ih =>
    obtain ⟨k, v⟩ := p
    show recordLookup (recordSpread (recordSet base k v) rest) key = _
    rw [ih, List.reverse_cons, recordLookup_append]
    cases h : recordLookup rest.reverse key with
    | some w => simp
    | none =>
      simp only [recordLookup_set]
      by_cases hk : k = key <;> simp [recordLookup, hk]

/-- C3: the claim asserts the worked example yields
`requesttimeoutseconds = 61`; the code yields 65
(`floor(max(60, 2) + max(5, 2 * 1.33)) = floor(60 + 5) = 65`), so the claim
is false at its own example input. -/
theorem generate_qbft_example_requestTimeout_ne_61 :
    ¬ ((generate .qbft exampleConfig []).config.qbft.map
        (fun bft => bft.requesttimeoutseconds) = some 61) := by
  have h : (generate .qbft exampleConfig []).config.qbft.map
      (fun bft => bft.requesttimeoutseconds) = some 65 := by
    simp [generate, buildConsensusConfig, generateBft, exampleConfig,
      MINIMUM_BFT_BLOCK_PERIOD_SECONDS, MINIMUM_ROUND_BUFFER_SECONDS,
      ROUND_TIMEOUT_MULTIPLIER]
    norm_num
  rw [h]
  simp

/-- C3 (amended): calling `generate` with algorithm QBFT, chainId 1337,
gasLimit `"0x1"`, secondsPerBlock 2 and empty extra allocations yields a
genesis document whose `config.qbft.blockperiodseconds` equals 2 and whose
`config.qbft.requesttimeoutseconds` equals 65. -/
theorem generate_qbft_example_requestTimeout_eq_65 :
    (generate .qbft exampleConfig []).config.qbft =
      some
        { blockperiodseconds := 2
          epochlength := 30000
          xemptyblockperiodseconds := 60
          requesttimeoutseconds := 65 } := by
  simp [generate, buildConsensusConfig, generateBft, exampleConfig,
    MINIMUM_BFT_BLOCK_PERIOD_SECONDS, MINIMUM_ROUND_BUFFER_SECONDS,
    ROUND_TIMEOUT_MULTIPLIER]
  norm_num

/-- C4: for every positive integer block period, the derived
`requesttimeoutseconds` equals
`floor(max(60, blockPeriod) + max(5, blockPeriod * 1.33))`, and the derived
consensus parameters are placed in the consensus sub-block selected by the
algorithm (`ibft2` for IBFT2, `qbft` for QBFT, the other absent). -/
theorem generate_requestTimeout_formula (config : BesuNetworkConfig)
    (extraAllocations : AllocRecord) (n : ℕ) (_hpos : 0 < n)
    (hs : config.secondsPerBlock = (n : ℚ)) :
    ((generate .ibftV2 config extraAllocations).config.ibft2 =
        some (generateBft config) ∧
      (generate .ibftV2 config extraAllocations).config.qbft = none) ∧
    ((generate .qbft config extraAllocations).config.qbft =
        some (generateBft config) ∧
      (generate .qbft config extraAllocations).config.ibft2 = none) ∧
    (generateBft config).requesttimeoutseconds =
      Int.floor (max (60 : ℚ) (n : ℚ) + max (5 : ℚ) ((n : ℚ) * 1.33)) := by
  refine ⟨⟨rfl, rfl⟩, ⟨rfl, rfl⟩, ?_⟩
  simp [generateBft, MINIMUM_BFT_BLOCK_PERIOD_SECONDS,
    MINIMUM_ROUND_BUFFER_SECONDS, ROUND_TIMEOUT_MULTIPLIER, hs]

theorem generate_requestTimeout_formula_witness :
    0 < 2 ∧
    (generateBft exampleConfig).requesttimeoutseconds =
      Int.floor (max (60 : ℚ) ((2 : ℕ) : ℚ) + max (5 : ℚ) (((2 : ℕ) : ℚ) * 1.33)) :=
  ⟨by decide,
    (generate_requestTimeout_formula exampleConfig [] 2 (by decide)
      (by norm_num [exampleConfig])).2.2⟩

/-- C6: `zeroBaseFee` of the generated document is true exactly when
`gasPrice` is absent or zero, and a positive `gasPrice` makes it false. -/
theorem generate_zeroBaseFee_iff (algorithm : Algorithm)
    (config : BesuNetworkConfig) (extraAllocations : AllocRecord) :
    ((generate algorithm config extraAllocations).config.zeroBaseFee = true ↔
      (config.gasPrice = none ∨ config.gasPrice = some 0)) ∧
    (∀ p : ℚ, config.gasPrice = some p → 0 < p →
      (generate algorithm config extraAllocations).config.zeroBaseFee = false) := by
  constructor
  · cases h : config.gasPrice with
    | none => simp [generate, h]
    | some p => simp [generate, h]
  · intro p hp hpos
    simp [generate, hp]
    exact hpos.ne'

theorem generate_zeroBaseFee_iff_witness :
    (generate .qbft pricedConfig []).config.zeroBaseFee = false :=
  (generate_zeroBaseFee_iff .qbft pricedConfig []).2 1 rfl (by norm_num)

/-- C7: the claim asserts `generate` fails on every non-positive chain id;
in the code `generate` performs no validation and cannot fail — at chain id 0
it returns a complete document carrying that chain id unchanged. -/
theorem generate_returns_document_for_nonpositive_chainId :
    nonPositiveChainConfig.chainId ≤ 0 ∧
    (generate .qbft nonPositiveChainConfig []).config.chainId = 0 ∧
    (generate .qbft nonPositiveChainConfig []).gasLimit = "0x1" :=
  ⟨by decide, rfl, rfl⟩

/-- C7 (amended): `generate` performs no I/O and never fails: it is a total
function that performs no runtime validation, embedding the given chain id
(non-positive included) and gas limit hex scalar unchanged in the returned
document. -/
theorem generate_total_no_validation (algorithm : Algorithm)
    (config : BesuNetworkConfig) (extraAllocations : AllocRecord) :
    (generate algorithm config extraAllocations).config.chainId =
      config.chainId ∧
    (generate algorithm config extraAllocations).gasLimit = config.gasLimit :=
  ⟨rfl, rfl⟩

/-- C8: the document generated with extra allocations differs from the one
generated with none only in the allocation map, which is the single faucet
entry (fixed starting balance) overlaid by every entry of the extra
allocations with last-write-wins — an extra entry keyed by the faucet
address overwrites the faucet allocation. -/
theorem generate_extraAllocations_frame (algorithm : Algorithm)
    (config : BesuNetworkConfig) (extraAllocations : AllocRecord) :
    generate algorithm config extraAllocations =
      { generate algorithm config [] with
        alloc :=
          recordSpread
            [(config.faucetWalletAddress,
              { balance := FAUCET_BALANCE, code := none, storage := none })]
            extraAllocations } ∧
    ∀ address : String,
      recordLookup (generate algorithm config extraAllocations).alloc address =
        match recordLookup extraAllocations.reverse address with
        | some account => some account
        | none =>
          if config.faucetWalletAddress = address then
            some { balance := FAUCET_BALANCE, code := none, storage := none }
          else none := by
  constructor
  · rfl
  · intro address
    show recordLookup (buildAlloc config.faucetWalletAddress extraAllocations)
        address = _
    rw [buildAlloc, recordLookup_spread]
    cases h : recordLookup extraAllocations.reverse address <;>
      simp [recordLookup]

/-! ## Validator extra-data encoder (`computeExtraData` with ox's `Rlp.fromHex`)

Bytes are modelled as `Nat` values below 256.  `Rlp.fromHex` is the standard
recursive length-prefixed encoding of nested lists of byte strings used by
the ox toolchain: a hex string decodes to its bytes, a single byte below
0x80 encodes as itself, other byte strings get a `0x80`-offset length
prefix, and lists get a `0xc0`-offset length prefix over their encoded
payload.  Hex strings that fail validation/decoding make the whole encoding
fail (`none`), matching the throw of `Hex.assert`/byte conversion. -/

/-- Minimal big-endian byte representation of a natural number (`0 ↦ []`). -/
def natToBytesBE (n : Nat) : List Nat :=
  if h : n = 0 then []
  else natToBytesBE (n / 256) ++ [n % 256]
termination_by n
decreasing_by exact Nat.div_lt_self (Nat.pos_of_ne_zero h) (by decide)

/-- RLP length prefix: `offset + len` for short payloads (≤ 55 bytes),
otherwise `offset + 55 +` the byte count of the length, followed by the
big-endian length bytes. -/
def encodeLength (offset len : Nat) : List Nat :=
  if len ≤ 55 then [offset + len]
  else
    let lenBytes := natToBytesBE len
    (offset + 55 + lenBytes.length) :: lenBytes

/-- An RLP value: a byte string or a list of RLP values. -/
inductive RlpItem where
  | bytes (bs : List Nat)
  | items (l : List RlpItem)

mutual

/-- RLP encoding of one item. -/
def rlpEncode : RlpItem → List Nat
  | .bytes bs =>
    match bs with
    | [b] => if b < 128 then [b] else encodeLength 128 1 ++ [b]
    | _ => encodeLength 128 bs.length ++ bs
  | .items l =>
    let payload := rlpEncodePayload l
    encodeLength 192 payload.length ++ payload

/-- Concatenated RLP encodings of a list of items. -/
def rlpEncodePayload : List RlpItem → List Nat
  | [] => []
  | x :: xs => rlpEncode x ++ rlpEncodePayload xs

end

/-- Value of a hex digit character, by character code (as the source's
regex-based validation admits `0-9`, `a-f` and `A-F`). -/
def hexDigitValue (c : Char) : Option Nat :=
  if 48 ≤ c.toNat ∧ c.toNat ≤ 57 then some (c.toNat - 48)
  else if 97 ≤ c.toNat ∧ c.toNat ≤ 102 then some (c.toNat - 87)
  else if 65 ≤ c.toNat ∧ c.toNat ≤ 70 then some (c.toNat - 55)
  else none

def isHexDigit (c : Char) : Bool := (hexDigitValue c).isSome

/-- Decode pairs of hex digits to bytes; fails on an odd count or a
non-digit. -/
def bytesFromHexChars : List Char → Option (List Nat)
  | [] => some []
  | [_] => none
  | a :: b :: rest =>
    match hexDigitValue a, hexDigitValue b, bytesFromHexChars rest with
    | some hi, some lo, some tail => some ((hi * 16 + lo) :: tail)
    | _, _, _ => none

/-- `Hex.assert(value, \x7b strict: true \x7d)`: the string matches
`^0x[0-9a-fA-F]*$`. -/
def isStrictHexString (s : String) : Bool :=
  match s.data with
  | '0' :: 'x' :: rest => rest.all isHexDigit
  | _ => false

/-- Bytes of a `0x`-prefixed hex string; `none` when malformed. -/
def hexToBytes (s : String) : Option (List Nat) :=
  match s.data with
  | '0' :: 'x' :: rest => bytesFromHexChars rest
  | _ => none

def hexDigitChar (n : Nat) : Char :=
  if n < 10 then Char.ofNat (48 + n) else Char.ofNat (87 + n)

/-- Lowercase `0x`-prefixed hex rendering of a byte list. -/
def bytesToHex (bs : List Nat) : String :=
  "0x" ++ String.mk (List.flatten (bs.map (fun b => [hexDigitChar (b / 16), hexDigitChar (b % 16)])))

/-- The recursive hex input of ox's `Rlp.fromHex`: a hex string or a nested
array of such inputs. -/
inductive HexInput where
  | hex (s : String)
  | arr (l : List HexInput)

mutual

/-- Decode a recursive hex input into an RLP item; fails on malformed hex. -/
def rlpItemOfHexInput : HexInput → Option RlpItem
  | .hex s => (hexToBytes s).map RlpItem.bytes
  | .arr l => (rlpItemsOfHexInput l).map RlpItem.items

def rlpItemsOfHexInput : List HexInput → Option (List RlpItem)
  | [] => some []
  | x :: xs =>
    match rlpItemOfHexInput x, rlpItemsOfHexInput xs with
    | some i, some rest => some (i :: rest)
    | _, _ => none

end

/-- ox's `Rlp.fromHex`: RLP-encode the recursive hex input and render the
result as a hex string. -/
def Rlp.fromHex (input : HexInput) : Option String :=
  (rlpItemOfHexInput input).map (fun item => bytesToHex (rlpEncode item))

/-- `computeExtraData`: validate every validator address
(`Hex.assert` strict), then RLP-encode the algorithm-specific 5-element
list. -/
def computeExtraData (algorithm : Algorithm) (validators : List String) :
    Option String :=
  if validators.all (fun v => isStrictHexString v) then
    match algorithm with
    | .ibftV2 =>
        Rlp.fromHex
          (.arr [.hex VANITY_DATA, .arr (validators.map HexInput.hex),
            .hex EMPTY_HEX, .hex ROUND_ZERO, .arr []])
    | .qbft =>
        Rlp.fromHex
          (.arr [.hex VANITY_DATA, .arr (validators.map HexInput.hex),
            .arr [], .hex EMPTY_HEX, .arr []])
  else none

def exampleValidator : String := "0x0000000000000000000000000000000000000abc"

theorem bytesFromHexChars_isSome : ∀ cs : List Char,
    (∀ c ∈ cs, isHexDigit c = true) → cs.length % 2 = 0 →
    ∃ bs, bytesFromHexChars cs = some bs
  | [], _, _ => ⟨[], rfl⟩
  | [_], _, hlen => by simp at hlen
  | a :: b :: rest, h, hlen => by
    obtain ⟨hi, hhi⟩ :=
      Option.isSome_iff_exists.mp (by simpa [isHexDigit] using h a (by simp))
    obtain ⟨lo, hlo⟩ :=
      Option.isSome_iff_exists.mp (by simpa [isHexDigit] using h b (by simp))
    have hlen' : rest.length % 2 = 0 := by
      simp only [List.length_cons] at hlen
      omega
    obtain ⟨tail, htail⟩ :=
      bytesFromHexChars_isSome rest (fun c hc => h c (by simp [hc])) hlen'
    exact ⟨(hi * 16 + lo) :: tail, by simp [bytesFromHexChars, hhi, hlo, htail]⟩

theorem hexToBytes_isSome_of_wellFormed (v : String)
    (h1 : isStrictHexString v = true) (h2 : v.data.length % 2 = 0) :
    (hexToBytes v).isSome := by
  unfold isStrictHexString at h1
  split at h1
  · rename_i rest heq
    have h2' : rest.length % 2 = 0 := by
      rw [heq] at h2
      simp only [List.length_cons] at h2
      omega
    obtain ⟨bs, hbs⟩ :=
      bytesFromHexChars_isSome rest (List.all_eq_true.mp h1) h2'
    unfold hexToBytes
    rw [heq]
    simp [hbs]
  · simp at h1

theorem rlpItemsOfHexInput_map_hex (validators : List String)
    (h : ∀ v ∈ validators, (hexToBytes v).isSome) :
    rlpItemsOfHexInput (validators.map HexInput.hex) =
      some (validators.map (fun v => RlpItem.bytes ((hexToBytes v).getD []))) := by
  induction validators with
  | nil => rfl
  | cons v rest ih =>
    obtain ⟨bs, hbs⟩ := Option.isSome_iff_exists.mp (h v (by simp))
    have ihh := ih (fun u hu => h u (by simp [hu]))
    simp [List.map_cons, rlpItemsOfHexInput, rlpItemOfHexInput, hbs, ihh]

/-- C1: for well-formed (0x-prefixed, even-length hex) validator addresses,
`computeExtraData` returns the RLP encoding of a 5-element list: element 0 is
the fixed 32-byte zero vanity field, element 1 is the validator address list
in exactly the caller-supplied order; for IBFT2 elements 2-4 are an empty
byte string, the 4-byte zero round number and an empty list, for QBFT an
empty list, an empty byte string and an empty list; and the result is
deterministic. -/
theorem computeExtraData_rlp_structure (algorithm : Algorithm)
    (validators : List String)
    (h : ∀ v ∈ validators, isStrictHexString v = true ∧ v.data.length % 2 = 0) :
    computeExtraData algorithm validators =
      some (bytesToHex (rlpEncode (.items
        [ RlpItem.bytes (List.replicate 32 0),
          RlpItem.items
            (validators.map (fun v => RlpItem.bytes ((hexToBytes v).getD []))),
          (match algorithm with
            | .ibftV2 => RlpItem.bytes []
            | .qbft => RlpItem.items []),
          (match algorithm with
            | .ibftV2 => RlpItem.bytes [0, 0, 0, 0]
            | .qbft => RlpItem.bytes []),
          RlpItem.items [] ]))) ∧
    computeExtraData algorithm validators =
      computeExtraData algorithm validators := by
  refine ⟨?_, rfl⟩
  have hsome : ∀ v ∈ validators, (hexToBytes v).isSome := fun v hv =>
    hexToBytes_isSome_of_wellFormed v (h v hv).1 (h v hv).2
  have hall : validators.all (fun v => isStrictHexString v) = true :=
    List.all_eq_true.mpr (fun v hv => (h v hv).1)
  have hmap := rlpItemsOfHexInput_map_hex validators hsome
  have hvan : hexToBytes VANITY_DATA = some (List.replicate 32 0) := by decide
  have hempty : hexToBytes EMPTY_HEX = some [] := by decide
  have hround : hexToBytes ROUND_ZERO = some [0, 0, 0, 0] := by decide
  cases algorithm with
  | ibftV2 =>
    simp [computeExtraData, hall, Rlp.fromHex, rlpItemOfHexInput,
      rlpItemsOfHexInput, hmap, hvan, hempty, hround]
  | qbft =>
    simp [computeExtraData, hall, Rlp.fromHex, rlpItemOfHexInput,
      rlpItemsOfHexInput, hmap, hvan, hempty, hround]

theorem computeExtraData_rlp_structure_witness :
    (∀ v ∈ [exampleValidator],
        isStrictHexString v = true ∧ v.data.length % 2 = 0) ∧
    computeExtraData .qbft [exampleValidator] =
      some (bytesToHex (rlpEncode (.items
        [ RlpItem.bytes (List.replicate 32 0),
          RlpItem.items
            ([exampleValidator].map
              (fun v => RlpItem.bytes ((hexToBytes v).getD []))),
          RlpItem.items [],
          RlpItem.bytes [],
          RlpItem.items [] ]))) :=
  ⟨by decide,
    (computeExtraData_rlp_structure .qbft [exampleValidator] (by decide)).1⟩

/-! ## Artifact publisher (kubernetes.client.ts `createConfigMap`,
bootstrap.output.ts `outputToKubernetes` / `createValidatorSpecs`)

`createConfigMap` is modelled as a pure function of the store's response to
the create call: success, HTTP 409 conflict ("already exists"), or any
other error.  A publish run maps it over the spec list; the run fails as
soon as any record fails (`Promise.all` rejection), and on success the
created count is the number of `true` results (`filter(Boolean).length`),
records skipped on conflict contributing `false`. -/

/-- The `onConflict` policy of a record: `"throw" | "skip"`. -/
inductive ConflictPolicy where
  | throw
  | skip
deriving DecidableEq, Repr

/-- `ConfigMapEntrySpec`. -/
structure ConfigMapEntrySpec where
  key : String
  name : String
  value : String
  immutable : Option Bool
  onConflict : Option ConflictPolicy
  annotations : Option (List (String × String))
deriving DecidableEq, Repr

/-- The store's response to one create call. -/
inductive CreateResult where
  | ok
  | conflict
  | otherError (msg : String)
deriving DecidableEq, Repr

/-- `createConfigMap`: `true` on creation, `false` when an existing record is
skipped under policy `skip`, an error naming the record otherwise. -/
def createConfigMap (spec : ConfigMapEntrySpec) (result : CreateResult) :
    Except String Bool :=
  match result with
  | .ok => .ok true
  | .conflict =>
    if spec.onConflict = some ConflictPolicy.skip then .ok false
    else
      .error ("ConfigMap " ++ spec.name ++
        " already exists. Delete it or choose a different output target.")
  | .otherError msg =>
    .error ("Failed to create ConfigMap " ++ spec.name ++ ": " ++ msg)

/-- The publish run of `outputToKubernetes` over its ConfigMap specs:
every record is attempted against the store; any record-level error fails
the whole run. -/
def publishConfigMaps (store : ConfigMapEntrySpec → CreateResult) :
    List ConfigMapEntrySpec → Except String (List Bool)
  | [] => .ok []
  | spec :: rest =>
    match createConfigMap spec (store spec), publishConfigMaps store rest with
    | .ok b, .ok bs => .ok (b :: bs)
    | .error e, _ => .error e
    | _, .error e => .error e

theorem publishConfigMaps_all_ok (store : ConfigMapEntrySpec → CreateResult)
    (specs : List ConfigMapEntrySpec) (h : ∀ s ∈ specs, store s = .ok) :
    publishConfigMaps store specs = .ok (List.replicate specs.length true) := by
  induction specs with
  | nil => rfl
  | cons s rest ih =>
    have hs : store s = .ok := h s (by simp)
    have ihh := ih (fun u hu => h u (by simp [hu]))
    simp [publishConfigMaps, createConfigMap, hs, ihh, List.replicate]

theorem publish_skip_aux (store : ConfigMapEntrySpec → CreateResult)
    (r : ConfigMapEntrySpec) (post : List ConfigMapEntrySpec)
    (hconf : store r = CreateResult.conflict)
    (hskip : r.onConflict = some ConflictPolicy.skip) :
    ∀ pre : List ConfigMapEntrySpec, (∀ s ∈ pre ++ post, store s = .ok) →
      publishConfigMaps store (pre ++ r :: post) =
        .ok (List.replicate pre.length true ++
          false :: List.replicate post.length true)
  | [], hok => by
    have hpost := publishConfigMaps_all_ok store post
      (fun s hs => hok s (by simpa using hs))
    simp [publishConfigMaps, createConfigMap, hconf, hskip, hpost]
  | p :: pre', hok => by
    have hp : store p = .ok := hok p (by simp)
    have ihh := publish_skip_aux store r post hconf hskip pre'
      (fun s hs => hok s (by simp only [List.cons_append, List.mem_cons]; tauto))
    simp [publishConfigMaps, createConfigMap, hp, ihh, List.replicate]

theorem publish_fail_aux (store : ConfigMapEntrySpec → CreateResult)
    (r : ConfigMapEntrySpec) (post : List ConfigMapEntrySpec)
    (hconf : store r = CreateResult.conflict)
    (hfail : ¬ r.onConflict = some ConflictPolicy.skip) :
    ∀ pre : List ConfigMapEntrySpec, (∀ s ∈ pre, store s = .ok) →
      publishConfigMaps store (pre ++ r :: post) =
        .error ("ConfigMap " ++ r.name ++
          " already exists. Delete it or choose a different output target.")
  | [], _ => by
    simp only [List.nil_append, publishConfigMaps, createConfigMap, hconf,
      if_neg hfail]
  | p :: pre', hok => by
    have hp : store p = .ok := hok p (by simp)
    have ihh := publish_fail_aux store r post hconf hfail pre'
      (fun s hs => hok s (by simp [hs]))
    simp [publishConfigMaps, createConfigMap, hp, ihh]

theorem filter_id_replicate_true (n : Nat) :
    ((List.replicate n true).filter id).length = n := by
  induction n with
  | zero => rfl
  | succ m ih => simp [List.replicate, List.filter, ih]

/-- C2: in a publish run where the store reports "already exists" for exactly
one record and succeeds for all others, a `skip` conflict policy on that
record lets the run complete with the record reported skipped (`false`) and
excluded from the created count, while any other policy fails the whole run
with an error naming the record. -/
theorem publish_conflict_policy (pre post : List ConfigMapEntrySpec)
    (r : ConfigMapEntrySpec) (store : ConfigMapEntrySpec → CreateResult)
    (hok : ∀ s ∈ pre ++ post, store s = .ok)
    (hconf : store r = CreateResult.conflict) :
    (r.onConflict = some ConflictPolicy.skip →
      publishConfigMaps store (pre ++ r :: post) =
        .ok (List.replicate pre.length true ++
          false :: List.replicate post.length true) ∧
      ((List.replicate pre.length true ++
          false :: List.replicate post.length true).filter id).length =
        pre.length + post.length) ∧
    (¬ r.onConflict = some ConflictPolicy.skip →
      publishConfigMaps store (pre ++ r :: post) =
        .error ("ConfigMap " ++ r.name ++
          " already exists. Delete it or choose a different output target.")) := by
  constructor
  · intro hskip
    refine ⟨publish_skip_aux store r post hconf hskip pre hok, ?_⟩
    simp [List.filter_append, List.filter, filter_id_replicate_true]
  · intro hfail
    exact publish_fail_aux store r post hconf hfail pre
      (fun s hs => hok s (by simp [hs]))

def skipSpec : ConfigMapEntrySpec :=
  { key := "genesis.json", name := "besu-genesis", value := "g"
    immutable := some true, onConflict := some ConflictPolicy.skip
    annotations := none }

def failSpec : ConfigMapEntrySpec :=
  { key := "genesis.json", name := "besu-genesis", value := "g"
    immutable := some true, onConflict := none, annotations := none }

def otherSpec : ConfigMapEntrySpec :=
  { key := "static-nodes.json", name := "besu-static-nodes", value := "[]"
    immutable := none, onConflict := none, annotations := none }

/-- A store that reports "already exists" for the record named
`besu-genesis` and succeeds for everything else. -/
def conflictOnGenesisStore (spec : ConfigMapEntrySpec) : CreateResult :=
  if spec.name = "besu-genesis" then .conflict else .ok

theorem publish_conflict_policy_witness :
    publishConfigMaps conflictOnGenesisStore (skipSpec :: [otherSpec]) =
      .ok [false, true] ∧
    publishConfigMaps conflictOnGenesisStore (failSpec :: [otherSpec]) =
      .error ("ConfigMap " ++ failSpec.name ++
        " already exists. Delete it or choose a different output target.") :=
  ⟨((publish_conflict_policy [] [otherSpec] skipSpec conflictOnGenesisStore
      (by decide) (by decide)).1 rfl).1,
    (publish_conflict_policy [] [otherSpec] failSpec conflictOnGenesisStore
      (by decide) (by decide)).2 (by decide)⟩

/-- `GeneratedNodeKey`: the key material of one generated node. -/
structure GeneratedNodeKey where
  address : String
  publicKey : String
  privateKey : String
  enode : String
deriving DecidableEq, Repr

/-- `IndexedNode`: a generated node key with its one-based generation
index. -/
structure IndexedNode extends GeneratedNodeKey where
  index : Nat
deriving DecidableEq, Repr

/-- `createValidatorSpecs`: four records per validator, named with the
zero-based ordinal `index - 1` (StatefulSet pod-ordinal alignment). -/
def createValidatorSpecs (nodes : List IndexedNode) (pfx : String) :
    List ConfigMapEntrySpec :=
  nodes.flatMap (fun node =>
    let ordinal := node.index - 1
    let base := pfx ++ "-" ++ toString ordinal
    [ { key := "address", name := base ++ "-address", value := node.address
        immutable := none, onConflict := none, annotations := none },
      { key := "privateKey", name := base ++ "-private-key"
        value := node.privateKey
        immutable := none, onConflict := none, annotations := none },
      { key := "enode", name := base ++ "-enode", value := node.enode
        immutable := none, onConflict := none, annotations := none },
      { key := "publicKey", name := base ++ "-pubkey", value := node.publicKey
        immutable := none, onConflict := none, annotations := none } ])

/-- `outputToKubernetes`: the validator records routed to the public
(ConfigMap) store primitive — those whose key is not `"privateKey"`. -/
def validatorConfigMapSpecs (nodes : List IndexedNode) (pfx : String) :
    List ConfigMapEntrySpec :=
  (createValidatorSpecs nodes pfx).filter (fun spec => !(spec.key == "privateKey"))

/-- `outputToKubernetes`: the validator records routed to the sensitive
(Secret) store primitive — those whose key is `"privateKey"`. -/
def validatorSecretSpecs (nodes : List IndexedNode) (pfx : String) :
    List ConfigMapEntrySpec :=
  (createValidatorSpecs nodes pfx).filter (fun spec => spec.key == "privateKey")

def sampleNode : IndexedNode :=
  { address := "0x0abc", publicKey := "0x04pub", privateKey := "0xpriv"
    enode := "enode" , index := 1 }

/-- C9: the claim asserts four public records per validator; the code
produces four records in total, of which three are public (address, public
key, enode) and one sensitive (private key) — so the public count for a
single validator is 3, not 4. -/
theorem createValidatorSpecs_not_four_public :
    (createValidatorSpecs [sampleNode] "besu-node-validator").length = 4 ∧
    (validatorConfigMapSpecs [sampleNode] "besu-node-validator").length = 3 ∧
    (validatorSecretSpecs [sampleNode] "besu-node-validator").length = 1 ∧
    ¬ ((validatorConfigMapSpecs [sampleNode] "besu-node-validator").length = 4) := by
  refine ⟨?_, ?_, ?_, ?_⟩ <;> decide

/-- C9 (amended): every validator produces three public records (address,
public key, enode identifier) and one sensitive record (private key), all
named with the zero-based ordinal equal to the validator's one-based
generation index minus one. -/
theorem createValidatorSpecs_per_validator (nodes : List IndexedNode)
    (pfx : String) :
    (validatorConfigMapSpecs nodes pfx).length = 3 * nodes.length ∧
    (validatorSecretSpecs nodes pfx).length = 1 * nodes.length ∧
    ∀ node ∈ nodes,
      ({ key := "address"
         name := pfx ++ "-" ++ toString (node.index - 1) ++ "-address"
         value := node.address
         immutable := none, onConflict := none, annotations := none } :
          ConfigMapEntrySpec) ∈ validatorConfigMapSpecs nodes pfx ∧
      ({ key := "publicKey"
         name := pfx ++ "-" ++ toString (node.index - 1) ++ "-pubkey"
         value := node.publicKey
         immutable := none, onConflict := none, annotations := none } :
          ConfigMapEntrySpec) ∈ validatorConfigMapSpecs nodes pfx ∧
      ({ key := "enode"
         name := pfx ++ "-" ++ toString (node.index - 1) ++ "-enode"
         value := node.enode
         immutable := none, onConflict := none, annotations := none } :
          ConfigMapEntrySpec) ∈ validatorConfigMapSpecs nodes pfx ∧
      ({ key := "privateKey"
         name := pfx ++ "-" ++ toString (node.index - 1) ++ "-private-key"
         value := node.privateKey
         immutable := none, onConflict := none, annotations := none } :
          ConfigMapEntrySpec) ∈ validatorSecretSpecs nodes pfx := by
  refine ⟨?_, ?_, ?_⟩
  · induction nodes with
    | nil => rfl
    | cons n rest ih =>
      simp only [validatorConfigMapSpecs, createValidatorSpecs,
        List.flatMap_cons, List.filter_append] at ih ⊢
      simp [List.filter, List.length_append, ih, Nat.mul_succ]
  · induction nodes with
    | nil => rfl
    | cons n rest ih =>
      simp only [validatorSecretSpecs, createValidatorSpecs,
        List.flatMap_cons, List.filter_append] at ih ⊢
      simp [List.filter, List.length_append, ih, Nat.mul_succ]
  · intro node hnode
    refine ⟨?_, ?_, ?_, ?_⟩ <;>
      exact List.mem_filter.mpr
        ⟨List.mem_flatMap.mpr ⟨node, hnode, by simp⟩, by simp⟩

theorem createValidatorSpecs_per_validator_witness :
    ({ key := "address"
       name := "besu-node-validator" ++ "-" ++ toString (sampleNode.index - 1)
         ++ "-address"
       value := sampleNode.address
       immutable := none, onConflict := none, annotations := none } :
        ConfigMapEntrySpec) ∈
      validatorConfigMapSpecs [sampleNode] "besu-node-validator" :=
  ((createValidatorSpecs_per_validator [sampleNode] "besu-node-validator").2.2
    sampleNode (by decide)).1

/-! ## Artifact synchronizer (download-abi.command.ts `syncAbiConfigMaps`)

The paginated listing loop is embedded as a step function over the loop's
mutable state (`continueToken`, `retryAttempts`, `resnapshotAttempts`,
`seenTokens`, totals) consuming one store response per list call, plus a
driver folding a response script.  A response is either a page (already
unwrapped into its items and raw continue-token metadata, as
`toConfigMapList`/`getListMetadata` do) or an error with an HTTP status
code.  Filesystem writes are mirrored by the written-entry count that the
source accumulates. -/

/-- Modelled from the spec: the discovery annotation key
(`settlemint.com/artifact`, per the download-abi command description; the
constants module itself is not under src). -/
def ARTIFACT_ANNOTATION_KEY : String := "settlemint.com/artifact"

/-- Modelled from the spec: the reserved annotation value marking interface
bundle (ABI) records (`abi`). -/
def ARTIFACT_VALUE_ABI : String := "abi"

def RESOURCE_EXPIRED_STATUS : Nat := 410

def RETRYABLE_STATUS_CODES : List Nat := [429, 500, 502, 503, 504]

def MAX_PAGE_RETRY_ATTEMPTS : Nat := 5

def MAX_RESNAPSHOT_ATTEMPTS : Nat := 3

/-- A Kubernetes ConfigMap as the sync loop reads it: optional name, the
annotation map and the data entries. -/
structure V1ConfigMap where
  name : Option String
  annotations : List (String × String)
  data : List (String × String)
deriving DecidableEq, Repr

/-- One response of the store to a list call. -/
inductive ListResponse where
  | page (items : List V1ConfigMap) (continueField : Option String)
  | err (statusCode : Option Nat)
deriving DecidableEq, Repr

/-- `getListMetadata`: a continue token is returned only when the metadata
field holds a nonempty string. -/
def getListMetadataToken (continueField : Option String) : Option String :=
  match continueField with
  | some s => if 0 < s.length then some s else none
  | none => none

/-- `writeConfigMap`: number of data entries written for one ConfigMap
(none without a name). -/
def writeConfigMap (cm : V1ConfigMap) : Nat :=
  match cm.name with
  | none => 0
  | some _ => cm.data.length

/-- The discovery filter: the object's annotation under the artifact key
equals the ABI marker value. -/
def hasAbiAnnotation (cm : V1ConfigMap) : Bool :=
  decide (recordLookup cm.annotations ARTIFACT_ANNOTATION_KEY =
    some ARTIFACT_VALUE_ABI)

/-- The mutable state of the `syncAbiConfigMaps` loop. -/
structure SyncState where
  continueToken : Option String
  retryAttempts : Nat
  resnapshotAttempts : Nat
  seenTokens : List String
  configMaps : Nat
  files : Nat
deriving DecidableEq, Repr

def initialSyncState : SyncState :=
  { continueToken := none
    retryAttempts := 0
    resnapshotAttempts := 0
    seenTokens := []
    configMaps := 0
    files := 0 }

/-- Result of one loop iteration. -/
inductive SyncStep where
  | next (s : SyncState)
  | done (configMaps files : Nat)
  | failed (msg : String)
deriving DecidableEq, Repr

def repeatedTokenMessage (token : String) : String :=
  "Detected repeated Kubernetes pagination token " ++ token ++
    "; aborting to avoid an infinite loop."

/-- One iteration of the `syncAbiConfigMaps` loop on the given store
response. -/
def syncStep (state : SyncState) (response : ListResponse) : SyncStep :=
  match response with
  | .err statusCode =>
    if statusCode = some RESOURCE_EXPIRED_STATUS then
      let ra := state.resnapshotAttempts + 1
      if MAX_RESNAPSHOT_ATTEMPTS < ra then
        .failed
          "Failed to download ABI ConfigMaps after repeated resource snapshot expirations."
      else
        .next { state with
          resnapshotAttempts := ra
          continueToken := none
          seenTokens := [] }
    else if (match statusCode with
        | some code => decide (code ∈ RETRYABLE_STATUS_CODES)
        | none => false) &&
        decide (state.retryAttempts < MAX_PAGE_RETRY_ATTEMPTS) then
      .next { state with retryAttempts := state.retryAttempts + 1 }
    else
      .failed "Failed to list ABI ConfigMaps"
  | .page items continueField =>
    let s1 := { state with retryAttempts := 0, resnapshotAttempts := 0 }
    let matched := items.filter hasAbiAnnotation
    let s2 := { s1 with
      configMaps := s1.configMaps + matched.length
      files := s1.files + (matched.map writeConfigMap).sum }
    match getListMetadataToken continueField with
    | none => .done s2.configMaps s2.files
    | some nextToken =>
      if nextToken ∈ s2.seenTokens then
        .failed (repeatedTokenMessage nextToken)
      else
        .next { s2 with
          seenTokens := nextToken :: s2.seenTokens
          continueToken := some nextToken }

/-- Outcome of running the loop against a finite script of store
responses. -/
inductive SyncOutcome where
  | pending (s : SyncState)
  | done (configMaps files : Nat)
  | failed (msg : String)
deriving DecidableEq, Repr

/-- Fold the loop over a response script: one response per issued list
call. -/
def syncRun (state : SyncState) : List ListResponse → SyncOutcome
  | [] => .pending state
  | response :: rest =>
    match syncStep state response with
    | .next s => syncRun s rest
    | .done a b => .done a b
    | .failed msg => .failed msg

theorem syncStep_page_mem (state : SyncState) (items : List V1ConfigMap)
    (tok : String) (hlen : 0 < tok.length) (hmem : tok ∈ state.seenTokens) :
    syncStep state (.page items (some tok)) =
      .failed (repeatedTokenMessage tok) := by
  simp [syncStep, getListMetadataToken, hlen, hmem]

theorem syncStep_page_fresh (state : SyncState) (items : List V1ConfigMap)
    (tok : String) (hlen : 0 < tok.length) (hmem : tok ∉ state.seenTokens) :
    syncStep state (.page items (some tok)) =
      .next { state with
        retryAttempts := 0
        resnapshotAttempts := 0
        configMaps := state.configMaps + (items.filter hasAbiAnnotation).length
        files := state.files +
          ((items.filter hasAbiAnnotation).map writeConfigMap).sum
        seenTokens := tok :: state.seenTokens
        continueToken := some tok } := by
  simp [syncStep, getListMetadataToken, hlen, hmem]

theorem syncRun_pages_dup_aux :
    ∀ (pages : List (List V1ConfigMap × String)) (state : SyncState),
      (∀ p ∈ pages, 0 < p.2.length) → state.seenTokens.Nodup →
      (∃ t, 2 ≤ (state.seenTokens ++ pages.map (fun p => p.2)).count t) →
      ∃ t, 2 ≤ (state.seenTokens ++ pages.map (fun p => p.2)).count t ∧
        ∀ rest : List ListResponse,
          syncRun state
            (pages.map (fun p => ListResponse.page p.1 (some p.2)) ++ rest) =
            .failed (repeatedTokenMessage t)
  | [], state, _, hnodup, hdup => by
    exfalso
    obtain ⟨t, ht⟩ := hdup
    simp only [List.map_nil, List.append_nil] at ht
    have := List.nodup_iff_count_le_one.mp hnodup t
    omega
  | (items, tok) :: ps, state, hne, hnodup, hdup => by
    have hlen : 0 < tok.length := hne (items, tok) (by simp)
    by_cases hmem : tok ∈ state.seenTokens
    · refine ⟨tok, ?_, fun rest => ?_⟩
      · rw [List.count_append]
        have h1 : 0 < state.seenTokens.count tok := List.count_pos_iff.mpr hmem
        have h2 : 0 < (((items, tok) :: ps).map (fun p => p.2)).count tok := by
          apply List.count_pos_iff.mpr
          simp
        omega
      · simp only [List.map_cons, List.cons_append, syncRun,
          syncStep_page_mem state items tok hlen hmem]
    · have hstep := syncStep_page_fresh state items tok hlen hmem
      have hnodup' : (tok :: state.seenTokens).Nodup :=
        List.nodup_cons.mpr ⟨hmem, hnodup⟩
      have hcount : ∀ u : String,
          ((tok :: state.seenTokens) ++ ps.map (fun p => p.2)).count u =
          (state.seenTokens ++ (((items, tok) :: ps).map (fun p => p.2))).count u := by
        intro u
        simp only [List.map_cons, List.count_append, List.count_cons]
        omega
      obtain ⟨t, hcnt, hfail⟩ := syncRun_pages_dup_aux ps
        { state with
            retryAttempts := 0
            resnapshotAttempts := 0
            configMaps :=
              state.configMaps + (items.filter hasAbiAnnotation).length
            files := state.files +
              ((items.filter hasAbiAnnotation).map writeConfigMap).sum
            seenTokens := tok :: state.seenTokens
            continueToken := some tok }
        (fun p hp => hne p (by simp [hp])) hnodup'
        (by obtain ⟨u, hu⟩ := hdup; exact ⟨u, by rw [hcount u]; exact hu⟩)
      refine ⟨t, ?_, fun rest => ?_⟩
      · rw [← hcount t]; exact hcnt
      · simp only [List.map_cons, List.cons_append, syncRun, hstep]
        exact hfail rest

/-- C5: when the store returns, during one listing, a continuation token it
already returned earlier (some token occurs at least twice in the page
sequence), the synchronizer fails with the protocol-violation error naming a
repeated token — independently of any further store responses, so it never
issues further list calls with that token and never loops forever. -/
theorem syncRun_repeated_token_fails
    (pages : List (List V1ConfigMap × String))
    (hne : ∀ p ∈ pages, 0 < p.2.length)
    (hdup : ∃ t, 2 ≤ (pages.map (fun p => p.2)).count t) :
    ∃ t, 2 ≤ (pages.map (fun p => p.2)).count t ∧
      ∀ rest : List ListResponse,
        syncRun initialSyncState
          (pages.map (fun p => ListResponse.page p.1 (some p.2)) ++ rest) =
          .failed (repeatedTokenMessage t) := by
  have h := syncRun_pages_dup_aux pages initialSyncState hne
    (by simp [initialSyncState])
    (by simpa [initialSyncState] using hdup)
  simpa [initialSyncState] using h

theorem syncRun_repeated_token_fails_witness :
    syncRun initialSyncState
      [ListResponse.page [] (some "t9"), ListResponse.page [] (some "t9")] =
      .failed (repeatedTokenMessage "t9") := by
  obtain ⟨t, hcnt, hfail⟩ :=
    syncRun_repeated_token_fails [([], "t9"), ([], "t9")] (by decide)
      ⟨"t9", by decide⟩
  have ht : t = "t9" := by
    by_contra hx
    simp [List.count_cons, beq_iff_eq, (Ne.symm hx : ¬ "t9" = t)] at hcnt
  have h := hfail []
  rw [ht] at h
  simpa using h

/-- An annotated ConfigMap with one data entry, listed twice around a
resnapshot in the C10 scenario. -/
def abiConfigMap : V1ConfigMap :=
  { name := some "abi-cm"
    annotations := [(ARTIFACT_ANNOTATION_KEY, ARTIFACT_VALUE_ABI)]
    data := [("Contract.json", "abi-contents")] }

/-- C10: the expired-cursor (410) branch resets only the continuation cursor
and the seen-token set (bumping the resnapshot counter) while the
accumulated totals survive; a successful page resets both attempt counters;
consequently an annotated object returned again after the restart is written
and counted a second time, so the totals at `done` (2 ConfigMaps, 2 files)
exceed the single distinct matched object. -/
theorem syncStep_resnapshot_frame :
    (∀ state : SyncState,
      state.resnapshotAttempts + 1 ≤ MAX_RESNAPSHOT_ATTEMPTS →
      syncStep state (.err (some RESOURCE_EXPIRED_STATUS)) =
        .next { state with
          resnapshotAttempts := state.resnapshotAttempts + 1
          continueToken := none
          seenTokens := [] }) ∧
    (∀ (state : SyncState) (items : List V1ConfigMap) (tok : String),
      0 < tok.length → tok ∉ state.seenTokens →
      syncStep state (.page items (some tok)) =
        .next { state with
          retryAttempts := 0
          resnapshotAttempts := 0
          configMaps :=
            state.configMaps + (items.filter hasAbiAnnotation).length
          files := state.files +
            ((items.filter hasAbiAnnotation).map writeConfigMap).sum
          seenTokens := tok :: state.seenTokens
          continueToken := some tok }) ∧
    syncRun initialSyncState
      [ListResponse.page [abiConfigMap] (some "t1"),
        ListResponse.err (some RESOURCE_EXPIRED_STATUS),
        ListResponse.page [abiConfigMap] none] =
      .done 2 2 ∧
    ([abiConfigMap] ++ [abiConfigMap]).dedup.length = 1 := by
  refine ⟨?_, syncStep_page_fresh, ?_, ?_⟩
  · intro state h
    have hra : ¬ MAX_RESNAPSHOT_ATTEMPTS < state.resnapshotAttempts + 1 := by
      omega
    simp [syncStep, hra]
  · decide
  · decide

theorem syncStep_resnapshot_frame_witness :
    syncStep initialSyncState (.err (some RESOURCE_EXPIRED_STATUS)) =
      .next { initialSyncState with resnapshotAttempts := 1 } ∧
    syncStep initialSyncState (.page [] (some "t1")) =
      .next { initialSyncState with
        seenTokens := ["t1"]
        continueToken := some "t1" } :=
  ⟨syncStep_resnapshot_frame.1 initialSyncState (by decide),
    syncStep_resnapshot_frame.2.1 initialSyncState [] "t1" (by decide)
      (by decide)⟩

end NetworkBootstrapper
